import Mathlib

/-!
Verification of the URL-fragment navigation engine in
`web-ng/src/app/services/router/router.service.ts` (class `NavigationService`).

The service stores navigation state in the URL fragment, parsed and
serialized with Angular's `HttpParams` (`@angular/common/http`) using the
default `HttpUrlEncodingCodec`.  We embed JS strings as lists of characters
(`Str`), `HttpParams` as an insertion-ordered association list from keys to
value lists (`Params`, mirroring the `Map<string, string[]>` inside
`HttpParams`), and each method of the service as a pure function from the
current parsed fragment to the next one plus the navigation request it
issues.
-/

/-- JS strings, embedded as lists of characters. -/
abbrev Str := List Char

/-- Shorthand turning a Lean string literal into the embedded type. -/
def str (s : String) : Str := s.data

/-! ### `encodeURIComponent` / `decodeURIComponent` and the Angular codec -/

/-- Characters `encodeURIComponent` leaves unescaped:
`A-Z a-z 0-9 - _ . ! ~ * ' ( )`. -/
def unreservedChar (c : Char) : Bool :=
  c.isAlpha || c.isDigit || c == '-' || c == '_' || c == '.' || c == '!' ||
  c == '~' || c == '*' || c.toNat == 39 || c == '(' || c == ')'

/-- Characters whose percent-escapes Angular's `standardEncoding` replaces
back with the literal character (`@ : $ , ; + = ? /`). -/
def standardExtraChar (c : Char) : Bool :=
  c == '@' || c == ':' || c == '$' || c == ',' || c == ';' || c == '+' ||
  c == '=' || c == '?' || c == '/'

/-- Uppercase hex digit for a value below 16 (as `encodeURIComponent`
emits). -/
def hexDigitChar (n : Nat) : Char :=
  if n < 10 then Char.ofNat (48 + n) else Char.ofNat (55 + n)

/-- `%XX` escape for a byte. -/
def percentByte (b : Nat) : Str :=
  ['%', hexDigitChar (b / 16), hexDigitChar (b % 16)]

/-- UTF-8 bytes of a code point. -/
def utf8Bytes (n : Nat) : List Nat :=
  if n < 0x80 then [n]
  else if n < 0x800 then [0xC0 + n / 64, 0x80 + n % 64]
  else if n < 0x10000 then
    [0xE0 + n / 4096, 0x80 + (n / 64) % 64, 0x80 + n % 64]
  else
    [0xF0 + n / 262144, 0x80 + (n / 4096) % 64, 0x80 + (n / 64) % 64,
     0x80 + n % 64]

/-- One character under Angular's `standardEncoding`
(`encodeURIComponent` followed by the `replace` chain restoring
`@ : $ , ; + = ? /`).  In `encodeURIComponent` output, `%` occurs only at
the start of a three-character escape and the nine restored characters are
ASCII bytes that never occur inside a multi-byte UTF-8 sequence, so the
global string replacement is exactly this per-character choice. -/
def standardEncChar (c : Char) : Str :=
  if unreservedChar c || standardExtraChar c then [c]
  else (utf8Bytes c.toNat).flatMap percentByte

/-- Angular `standardEncoding`, used by `HttpUrlEncodingCodec` for both
keys and values. -/
def standardEncoding (s : Str) : Str := s.flatMap standardEncChar

/-- Value of a hex digit character, if it is one. -/
def hexVal (c : Char) : Option Nat :=
  if '0' ≤ c ∧ c ≤ '9' then some (c.toNat - 48)
  else if 'A' ≤ c ∧ c ≤ 'F' then some (c.toNat - 55)
  else if 'a' ≤ c ∧ c ≤ 'f' then some (c.toNat - 87)
  else none

/-- Lexical tokens of a percent-encoded string: a plain character or the
byte of one `%XX` escape. -/
inductive UriTok where
  | ch (c : Char)
  | byte (b : Nat)
deriving DecidableEq

/-- Scan a string into tokens; `none` models the `URIError` that
`decodeURIComponent` throws on a `%` not followed by two hex digits. -/
def uriTokens : Str → Option (List UriTok)
  | [] => some []
  | c :: rest =>
    if c = '%' then
      match rest with
      | h1 :: h2 :: rest2 =>
        match hexVal h1, hexVal h2 with
        | some a, some b =>
          (uriTokens rest2).map (fun ts => UriTok.byte (16 * a + b) :: ts)
        | _, _ => none
      | _ => none
    else (uriTokens rest).map (fun ts => UriTok.ch c :: ts)

/-- Value of a UTF-8 continuation byte, if it is one. -/
def contVal (b : Nat) : Option Nat :=
  if 0x80 ≤ b ∧ b < 0xC0 then some (b - 0x80) else none

/-- Build a character from a code point, rejecting values below `minv`
(overlong encodings) and invalid scalar values (surrogates, out of range),
as `decodeURIComponent` does. -/
def mkCharChecked (minv cp : Nat) : Option Char :=
  if minv ≤ cp ∧ Nat.isValidChar cp then some (Char.ofNat cp) else none

/-- Strict UTF-8 decoding of a byte run; `none` models `URIError`. -/
def utf8DecodeAll : List Nat → Option Str
  | [] => some []
  | b :: rest =>
    if b < 0x80 then (utf8DecodeAll rest).map (fun cs => Char.ofNat b :: cs)
    else if b < 0xC0 then none
    else if b < 0xE0 then
      match rest with
      | b1 :: rest1 =>
        match contVal b1 with
        | some x1 =>
          match mkCharChecked 0x80 ((b - 0xC0) * 64 + x1) with
          | some c => (utf8DecodeAll rest1).map (fun cs => c :: cs)
          | none => none
        | none => none
      | [] => none
    else if b < 0xF0 then
      match rest with
      | b1 :: b2 :: rest2 =>
        match contVal b1, contVal b2 with
        | some x1, some x2 =>
          match mkCharChecked 0x800 ((b - 0xE0) * 4096 + x1 * 64 + x2) with
          | some c => (utf8DecodeAll rest2).map (fun cs => c :: cs)
          | none => none
        | _, _ => none
      | _ => none
    else if b < 0xF8 then
      match rest with
      | b1 :: b2 :: b3 :: rest3 =>
        match contVal b1, contVal b2, contVal b3 with
        | some x1, some x2, some x3 =>
          match mkCharChecked 0x10000
              ((b - 0xF0) * 262144 + x1 * 4096 + x2 * 64 + x3) with
          | some c => (utf8DecodeAll rest3).map (fun cs => c :: cs)
          | none => none
        | _, _, _ => none
      | _ => none
    else none

/-- Group consecutive escape bytes into runs (a multi-byte UTF-8 character
spans several consecutive `%XX` escapes). -/
def groupBytes : List UriTok → List (Sum Char (List Nat))
  | [] => []
  | UriTok.ch c :: rest => Sum.inl c :: groupBytes rest
  | UriTok.byte b :: rest =>
    match groupBytes rest with
    | Sum.inr bs :: tail => Sum.inr (b :: bs) :: tail
    | tail => Sum.inr [b] :: tail

/-- Decode the grouped tokens; every byte run must be valid UTF-8. -/
def decodePieces : List (Sum Char (List Nat)) → Option Str
  | [] => some []
  | Sum.inl c :: rest => (decodePieces rest).map (fun cs => c :: cs)
  | Sum.inr bs :: rest =>
    match utf8DecodeAll bs, decodePieces rest with
    | some cs, some tail => some (cs ++ tail)
    | _, _ => none

/-- `decodeURIComponent`, as used by `HttpUrlEncodingCodec.decodeKey` and
`decodeValue`; `none` models a thrown `URIError`. -/
def decodeURIComp (s : Str) : Option Str :=
  (uriTokens s).bind (fun ts => decodePieces (groupBytes ts))

/-! ### Splitting and joining (JS `String.split` / `Array.join` with a
single-character separator) -/

/-- JS `s.split(sep)` for a one-character separator. -/
def splitOnChar (sep : Char) : Str → List Str
  | [] => [[]]
  | c :: cs =>
    let r := splitOnChar sep cs
    if c = sep then [] :: r
    else
      match r with
      | [] => [[c]]
      | s :: ss => (c :: s) :: ss

/-- JS `parts.join(sep)` for a one-character separator. -/
def joinWith (sep : Char) : List Str → Str
  | [] => []
  | [s] => s
  | s :: rest => s ++ sep :: joinWith sep rest

/-! ### `HttpParams` -/

/-- The internal state of an Angular `HttpParams`: an insertion-ordered
`Map<string, string[]>`. -/
abbrev Params := List (Str × List Str)

/-- `HttpParams.get`: first value for the key, or null. -/
def paramsGet (p : Params) (k : Str) : Option Str :=
  match p.find? (fun kv => kv.1 == k) with
  | some kv => kv.2.head?
  | none => none

/-- `HttpParams.getAll`: the value list for the key, or null. -/
def paramsGetAll (p : Params) (k : Str) : Option (List Str) :=
  (p.find? (fun kv => kv.1 == k)).map (fun kv => kv.2)

/-- `HttpParams.has`. -/
def paramsHasKey (p : Params) (k : Str) : Bool :=
  p.any (fun kv => kv.1 == k)

/-- `HttpParams.set`: replace the key's values with the singleton (keeping
the key's position, as JS `Map.set` does), or append a new key. -/
def paramsSet (p : Params) (k v : Str) : Params :=
  if p.any (fun kv => kv.1 == k) then
    p.map (fun kv => if kv.1 == k then (k, [v]) else kv)
  else p ++ [(k, [v])]

/-- `HttpParams.delete` with no value argument: drop the key. -/
def paramsDelete (p : Params) (k : Str) : Params :=
  p.filter (fun kv => !(kv.1 == k))

/-- The parser's `list.push(val); map.set(key, list)`: append a value to an
existing key's list, or append a new key at the end. -/
def appendVal (p : Params) (k v : Str) : Params :=
  if p.any (fun kv => kv.1 == k) then
    p.map (fun kv => if kv.1 == k then (kv.1, kv.2 ++ [v]) else kv)
  else p ++ [(k, [v])]

/-- `HttpParams.toString`: per key, each value as
`encodeKey(k)=encodeValue(v)` joined by `&`; empty per-key strings are
filtered out; keys joined by `&`. -/
def paramsToString (p : Params) : Str :=
  joinWith '&'
    ((p.map (fun kv =>
        joinWith '&'
          (kv.2.map (fun v =>
            standardEncoding kv.1 ++ '=' :: standardEncoding v)))).filter
      (fun s => !(s == [])))

/-- One `key=value` segment of Angular's `paramParser`: split at the first
`=`; no `=` means the whole segment is the (decoded) key with value `""`;
otherwise decode both sides.  `none` models a thrown `URIError`. -/
def parsePair (s : Str) : Option (Str × Str) :=
  match splitOnChar '=' s with
  | [] => none
  | [k] =>
    match decodeURIComp k with
    | some dk => some (dk, [])
    | none => none
  | k :: rest =>
    match decodeURIComp k, decodeURIComp (joinWith '=' rest) with
    | some dk, some dv => some (dk, dv)
    | _, _ => none

/-- Angular's `paramParser`, the decoder behind
`new HttpParams({ fromString: raw })`: an empty string gives the empty
map; otherwise split on `&` and accumulate each segment.  `none` models a
thrown `URIError`. -/
def parseParams (raw : Str) : Option Params :=
  if raw = [] then some []
  else
    (splitOnChar '&' raw).foldlM
      (fun ps seg => (parsePair seg).map (fun kv => appendVal ps kv.1 kv.2))
      []

/-- `fragment || ''` on a nullable fragment. -/
def fragOrEmpty : Option Str → Str
  | none => []
  | some s => s

/-! ### `NavigationService`: fragment keys and side-nav mode -/

/-- `LAYER_ID_FRAGMENT_PARAM`. -/
def LAYER_ID_FRAGMENT_PARAM : Str := str "l"

/-- `FEATURE_ID_FRAGMENT_PARAM`. -/
def FEATURE_ID_FRAGMENT_PARAM : Str := str "f"

/-- `OBSERVATION_ID_FRAGMENT_PARAM`. -/
def OBSERVATION_ID_FRAGMENT_PARAM : Str := str "o"

/-- The `SideNavMode` enum (`LAYER_LIST = 1, OBSERVATION = 2, FEATURE = 3`). -/
inductive SideNavMode where
  | LAYER_LIST
  | OBSERVATION
  | FEATURE
deriving DecidableEq, Repr

/-- The numeric value of each enum member. -/
def SideNavMode.toNat : SideNavMode → Nat
  | .LAYER_LIST => 1
  | .OBSERVATION => 2
  | .FEATURE => 3

/-- JS truthiness of a `string | null`: `null` and `""` are falsy. -/
def truthy : Option Str → Bool
  | none => false
  | some s => !(s == [])

/-- `NavigationService.fragmentParamsToSideNavMode`: the branches test
`params.get(...)` for truthiness. -/
def fragmentParamsToSideNavMode (params : Params) : SideNavMode :=
  if truthy (paramsGet params OBSERVATION_ID_FRAGMENT_PARAM) then
    SideNavMode.OBSERVATION
  else if truthy (paramsGet params FEATURE_ID_FRAGMENT_PARAM) then
    SideNavMode.FEATURE
  else SideNavMode.LAYER_LIST

/-- The spec's `project(FragmentMap) -> SideNavMode`, written from the
spec's words for comparison with the code: precedence on key *presence*
("If `observation` key present → OBSERVATION; else if `feature` key
present → FEATURE; else LAYER_LIST"). -/
def sideNavModeSpec (params : Params) : SideNavMode :=
  if paramsHasKey params OBSERVATION_ID_FRAGMENT_PARAM then
    SideNavMode.OBSERVATION
  else if paramsHasKey params FEATURE_ID_FRAGMENT_PARAM then
    SideNavMode.FEATURE
  else SideNavMode.LAYER_LIST

/-! ### Fragment-mutating operations

Each method reads the current fragment (`getFragmentParams`), computes the
next `HttpParams`, and navigates.  We split each method into its effect on
the parsed fragment map (a pure `Params → Params` function) and the
navigation request it then issues (below). -/

/-- The loop body of `setFragmentParam(updates)`: for each `[key, value]`
pair, `params.set(key, value)` when `value` is truthy, else
`params.delete(key)`. -/
def setFragmentParamUpdates (updates : List (Str × Option Str))
    (params : Params) : Params :=
  updates.foldl
    (fun ps kv =>
      if truthy kv.2 then paramsSet ps kv.1 (fragOrEmpty kv.2)
      else paramsDelete ps kv.1)
    params

/-- `getFeatureId()` on the parsed current fragment. -/
def getFeatureIdOf (params : Params) : Option Str :=
  paramsGet params FEATURE_ID_FRAGMENT_PARAM

/-- `getObservationId()` on the parsed current fragment. -/
def getObservationIdOf (params : Params) : Option Str :=
  paramsGet params OBSERVATION_ID_FRAGMENT_PARAM

/-- `setFeatureId(id)`: updates `{f: id}` plus, when the current
observation id is truthy, `{o: null}` (object-literal insertion order:
`f` then `o`), applied via `setFragmentParam`. -/
def setFeatureId (id : Option Str) (params : Params) : Params :=
  setFragmentParamUpdates
    ((FEATURE_ID_FRAGMENT_PARAM, id) ::
      (if truthy (getObservationIdOf params) then
        [(OBSERVATION_ID_FRAGMENT_PARAM, (none : Option Str))]
      else []))
    params

/-- `setObservationId(id)`: updates `Map([['o', id]])`. -/
def setObservationId (id : Option Str) (params : Params) : Params :=
  setFragmentParamUpdates [(OBSERVATION_ID_FRAGMENT_PARAM, id)] params

/-- `setLayerId(id)`: updates `Map([['l', id]])`. -/
def setLayerId (id : Str) (params : Params) : Params :=
  setFragmentParamUpdates [(LAYER_ID_FRAGMENT_PARAM, some id)] params

/-- JS iteration of a string as if it were an updates map: `for (const
[key, value] of s)` yields, for each character, the one-character string as
`key` and `undefined` (falsy) as `value`. -/
def stringAsUpdates (s : Str) : List (Str × Option Str) :=
  s.map (fun c => ([c], (none : Option Str)))

/-- `editObservation(id)`: the call passes the bare key string `'o'` where
`setFragmentParam` expects a `Map` of updates (ill-typed in TypeScript; we
embed the JavaScript runtime behavior of the expression).  Iterating the
string `'o'` yields the single update `['o', undefined]`, so the `id`
argument is never used. -/
def editObservation (_id : Option Str) (params : Params) : Params :=
  setFragmentParamUpdates (stringAsUpdates OBSERVATION_ID_FRAGMENT_PARAM)
    params

/-! ### Navigation requests -/

/-- The `NavigationExtras` fields this service can set.  An absent
`replaceUrl` is falsy, i.e. Angular's default push-history behavior. -/
structure NavigationExtras where
  fragment : Option Str
  replaceUrl : Bool
deriving DecidableEq, Repr

/-- `navigate(commands)` / `navigateByUrl(url)` with no extras object. -/
def defaultExtras : NavigationExtras := ⟨none, false⟩

/-- A call into the Angular `Router`. -/
inductive NavCall where
  | navigate (commands : List Str) (extras : NavigationExtras)
  | navigateByUrl (url : Str) (extras : NavigationExtras)
deriving DecidableEq, Repr

/-- Whether the requested navigation replaces the current history entry. -/
def NavCall.replaces : NavCall → Bool
  | .navigate _ e => e.replaceUrl
  | .navigateByUrl _ e => e.replaceUrl

/-- `setFragmentParams(params)`: if `params.toString()` is truthy, navigate
to the primary path with `{ fragment: params.toString() }` (no
`replaceUrl`); else navigate with no extras at all.  The primary path
(`router.parseUrl(router.url).root.children['primary'].toString()`) is
external router state, taken as an input. -/
def setFragmentParamsNav (primaryUrl : Str) (params : Params) : NavCall :=
  if !(paramsToString params == []) then
    NavCall.navigate [primaryUrl] ⟨some (paramsToString params), false⟩
  else NavCall.navigate [primaryUrl] defaultExtras

/-- The navigation issued by `setFeatureId`. -/
def setFeatureIdNav (primaryUrl : Str) (id : Option Str)
    (params : Params) : NavCall :=
  setFragmentParamsNav primaryUrl (setFeatureId id params)

/-- The navigation issued by `setObservationId`. -/
def setObservationIdNav (primaryUrl : Str) (id : Option Str)
    (params : Params) : NavCall :=
  setFragmentParamsNav primaryUrl (setObservationId id params)

/-- The navigation issued by `setLayerId`. -/
def setLayerIdNav (primaryUrl : Str) (id : Str) (params : Params) :
    NavCall :=
  setFragmentParamsNav primaryUrl (setLayerId id params)

/-- The navigation issued by `editObservation`. -/
def editObservationNav (primaryUrl : Str) (id : Option Str)
    (params : Params) : NavCall :=
  setFragmentParamsNav primaryUrl (editObservation id params)

/-- `selectProject(id)`: `navigateByUrl('project/' + id)`. -/
def selectProjectNav (id : Str) : NavCall :=
  NavCall.navigateByUrl (str "project/" ++ id) defaultExtras

/-- `newProject()`: `navigate(['project', 'new'])`. -/
def newProjectNav : NavCall :=
  NavCall.navigate [str "project", str "new"] defaultExtras

/-- `signIn()`: `navigate(['signin'])`. -/
def signInNav : NavCall :=
  NavCall.navigate [str "signin"] defaultExtras

/-- `signOut()`: `navigate(['/'])`. -/
def signOutNav : NavCall :=
  NavCall.navigate [str "/"] defaultExtras

/-! ### Streams set up by `init`

`route.fragment` emits the raw fragment string on each navigation event
whose fragment changed; each derived stream is `fragmentParams$.pipe(map
...)`, so it produces one output value per input event.  An emission is
`none` when parsing the fragment throws (the rxjs pipeline errors);
otherwise `some` of the mapped value. -/

/-- `fragmentParams$`: `map(fragment => new HttpParams({fromString:
fragment || ''}))` over the fragment events. -/
def fragmentParamsStream (frags : List (Option Str)) : List (Option Params) :=
  frags.map (fun f => parseParams (fragOrEmpty f))

/-- `layerId$`: `fragmentParams$.pipe(map(params => params.get('l')))`. -/
def layerIdStream (frags : List (Option Str)) :
    List (Option (Option Str)) :=
  (fragmentParamsStream frags).map
    (fun p => p.map (fun params => paramsGet params LAYER_ID_FRAGMENT_PARAM))

/-- `featureId$`. -/
def featureIdStream (frags : List (Option Str)) :
    List (Option (Option Str)) :=
  (fragmentParamsStream frags).map
    (fun p => p.map (fun params => paramsGet params FEATURE_ID_FRAGMENT_PARAM))

/-- `observationId$`. -/
def observationIdStream (frags : List (Option Str)) :
    List (Option (Option Str)) :=
  (fragmentParamsStream frags).map
    (fun p =>
      p.map (fun params => paramsGet params OBSERVATION_ID_FRAGMENT_PARAM))

/-- `sideNavMode$`. -/
def sideNavModeStream (frags : List (Option Str)) :
    List (Option SideNavMode) :=
  (fragmentParamsStream frags).map
    (fun p => p.map fragmentParamsToSideNavMode)

/-- `paramMap.get('projectId')` on one param-map event. -/
def paramMapGet (m : List (Str × Str)) (k : Str) : Option Str :=
  (m.find? (fun kv => kv.1 == k)).map (fun kv => kv.2)

/-- `projectId$`: `route.paramMap.pipe(map(params =>
params.get('projectId')))`. -/
def projectIdStream (paramMaps : List (List (Str × Str))) :
    List (Option Str) :=
  paramMaps.map (fun m => paramMapGet m (str "projectId"))

/-! ### Service state and accessors (initialization behavior) -/

/-- Runtime failures observable from the accessors, plus the
`InitializationError` the spec postulates (the code never produces it). -/
inductive JsError where
  | typeError
  | uriError
  | initializationError
deriving DecidableEq, Repr

/-- The part of an `ActivatedRoute` the service consumes. -/
structure ActivatedRouteModel where
  snapshotFragment : Option Str
  fragmentEvents : List (Option Str)
  paramMapEvents : List (List (Str × Str))

/-- The mutable fields of `NavigationService`; every one is `undefined`
(`none`) until `init` assigns it. -/
structure NavigationServiceState where
  activatedRoute : Option ActivatedRouteModel
  projectIdField : Option (List (Option Str))
  layerIdField : Option (List (Option (Option Str)))
  featureIdField : Option (List (Option (Option Str)))
  observationIdField : Option (List (Option (Option Str)))
  sideNavModeField : Option (List (Option SideNavMode))

/-- The service as constructed, before `init` is called. -/
def uninitializedService : NavigationServiceState :=
  ⟨none, none, none, none, none, none⟩

/-- `init(route)`: stores the route and builds the five streams. -/
def initService (route : ActivatedRouteModel) (_s : NavigationServiceState) :
    NavigationServiceState :=
  ⟨some route,
   some (projectIdStream route.paramMapEvents),
   some (layerIdStream route.fragmentEvents),
   some (featureIdStream route.fragmentEvents),
   some (observationIdStream route.fragmentEvents),
   some (sideNavModeStream route.fragmentEvents)⟩

/-- `getProjectId$()`, i.e. `return this.projectId$!`: the TypeScript `!`
assertion has no runtime effect, so before `init` this returns `undefined`
(`none`) without any error. -/
def getProjectIdAccessor (s : NavigationServiceState) :
    Option (List (Option Str)) :=
  s.projectIdField

/-- `getLayerId$()`. -/
def getLayerIdAccessor (s : NavigationServiceState) :
    Option (List (Option (Option Str))) :=
  s.layerIdField

/-- `getFeatureId$()`. -/
def getFeatureIdStreamAccessor (s : NavigationServiceState) :
    Option (List (Option (Option Str))) :=
  s.featureIdField

/-- `getObservationId$()`. -/
def getObservationIdStreamAccessor (s : NavigationServiceState) :
    Option (List (Option (Option Str))) :=
  s.observationIdField

/-- `getSideNavMode$()`. -/
def getSideNavModeAccessor (s : NavigationServiceState) :
    Option (List (Option SideNavMode)) :=
  s.sideNavModeField

/-- `getFragmentParams()`: `this.activatedRoute!.snapshot.fragment` throws
a `TypeError` when `activatedRoute` is `undefined`; otherwise parse the
snapshot fragment (a thrown `URIError` surfaces on first access to the
lazy `HttpParams`, here folded into the accessor). -/
def getFragmentParamsAccessor (s : NavigationServiceState) :
    Except JsError Params :=
  match s.activatedRoute with
  | none => Except.error JsError.typeError
  | some r =>
    match parseParams (fragOrEmpty r.snapshotFragment) with
    | some p => Except.ok p
    | none => Except.error JsError.uriError

/-- `getFeatureId()`: `getFragmentParams().get('f')`. -/
def getFeatureIdAccessor (s : NavigationServiceState) :
    Except JsError (Option Str) :=
  (getFragmentParamsAccessor s).map
    (fun p => paramsGet p FEATURE_ID_FRAGMENT_PARAM)

/-- `getObservationId()`: `getFragmentParams().get('o')`. -/
def getObservationIdAccessor (s : NavigationServiceState) :
    Except JsError (Option Str) :=
  (getFragmentParamsAccessor s).map
    (fun p => paramsGet p OBSERVATION_ID_FRAGMENT_PARAM)

/-! ### Validity predicates -/

/-- A URL-safe character: ASCII alphanumerics and `- _ . ~`.  Such
characters are untouched by `standardEncoding` and `decodeURIComponent`
and are distinct from the metacharacters `& = %`. -/
def urlSafeChar (c : Char) : Bool :=
  c.isAlpha || c.isDigit || c == '-' || c == '_' || c == '.' || c == '~'

/-- A string all of whose characters are URL-safe. -/
def urlSafeStr (s : Str) : Bool :=
  s.all urlSafeChar

/-- The invariant every `HttpParams` reachable from parsing or from
`set`/`delete` satisfies: no key maps to an empty value list. -/
def validParams (p : Params) : Prop :=
  ∀ kv ∈ p, kv.2 ≠ []

instance (p : Params) : Decidable (validParams p) := by
  unfold validParams
  infer_instance

/-- A spec-level `FragmentMap` (one string value per key), viewed as the
`HttpParams` it induces. -/
def toParams (m : List (Str × Str)) : Params :=
  m.map (fun kv => (kv.1, [kv.2]))

/-- Serialization of a `FragmentMap`: build the `HttpParams` and call
`toString()` — the encoder used by `setFragmentParams`. -/
def encodeFragmentMap (m : List (Str × Str)) : Str :=
  paramsToString (toParams m)

/-! ## Lemmas -/

/-- Membership in an all-safe string gives a safe character. -/
theorem urlSafeStr_mem {s : Str} {c : Char} (h : urlSafeStr s = true)
    (hc : c ∈ s) : urlSafeChar c = true := by
  exact List.all_eq_true.mp h c hc

/-- URL-safe characters are among those `encodeURIComponent` leaves
alone. -/
theorem urlSafeChar_unreserved {c : Char} (h : urlSafeChar c = true) :
    unreservedChar c = true := by
  simp only [urlSafeChar, Bool.or_eq_true] at h
  simp only [unreservedChar, Bool.or_eq_true]
  tauto

/-- URL-safe characters are not `&`. -/
theorem urlSafeChar_ne_amp {c : Char} (h : urlSafeChar c = true) :
    c ≠ '&' := by
  intro hc
  subst hc
  exact absurd h (by decide)

/-- URL-safe characters are not `=`. -/
theorem urlSafeChar_ne_eq {c : Char} (h : urlSafeChar c = true) :
    c ≠ '=' := by
  intro hc
  subst hc
  exact absurd h (by decide)

/-- URL-safe characters are not `%`. -/
theorem urlSafeChar_ne_pct {c : Char} (h : urlSafeChar c = true) :
    c ≠ '%' := by
  intro hc
  subst hc
  exact absurd h (by decide)

/-- `standardEncoding` leaves a URL-safe character unchanged. -/
theorem standardEncChar_safe {c : Char} (h : urlSafeChar c = true) :
    standardEncChar c = [c] := by
  simp [standardEncChar, urlSafeChar_unreserved h]

/-- `standardEncoding` is the identity on URL-safe strings. -/
theorem standardEncoding_safe {s : Str} (h : urlSafeStr s = true) :
    standardEncoding s = s := by
  induction s with
  | nil => rfl
  | cons c cs ih =>
    rw [urlSafeStr, List.all_cons, Bool.and_eq_true] at h
    show standardEncChar c ++ cs.flatMap standardEncChar = c :: cs
    rw [standardEncChar_safe h.1]
    have : standardEncoding cs = cs := ih h.2
    rw [standardEncoding] at this
    rw [this]
    rfl

/-- Tokenizing a percent-free string yields only plain characters. -/
theorem uriTokens_no_pct {s : Str} (h : ∀ c ∈ s, c ≠ '%') :
    uriTokens s = some (s.map UriTok.ch) := by
  induction s with
  | nil => rfl
  | cons c cs ih =>
    have hc : ¬(c = '%') := h c (List.mem_cons_self c cs)
    rw [uriTokens.eq_def]
    simp only [if_neg hc]
    rw [ih (fun x hx => h x (List.mem_cons_of_mem c hx))]
    rfl

/-- Grouping plain-character tokens keeps them plain. -/
theorem groupBytes_chs (cs : Str) :
    groupBytes (cs.map UriTok.ch) = cs.map Sum.inl := by
  induction cs with
  | nil => rfl
  | cons c t ih => simp [groupBytes, ih]

/-- Decoding plain-character pieces returns the characters. -/
theorem decodePieces_chs (cs : Str) :
    decodePieces (cs.map Sum.inl) = some cs := by
  induction cs with
  | nil => rfl
  | cons c t ih => simp [decodePieces, ih]

/-- `decodeURIComponent` is the identity on percent-free strings. -/
theorem decodeURIComp_no_pct {s : Str} (h : ∀ c ∈ s, c ≠ '%') :
    decodeURIComp s = some s := by
  rw [decodeURIComp, uriTokens_no_pct h]
  simp [groupBytes_chs, decodePieces_chs]

/-- `decodeURIComponent` is the identity on URL-safe strings. -/
theorem decodeURIComp_safe {s : Str} (h : urlSafeStr s = true) :
    decodeURIComp s = some s :=
  decodeURIComp_no_pct (fun _c hc => urlSafeChar_ne_pct (urlSafeStr_mem h hc))

/-- Splitting a string that does not contain the separator yields the
singleton list. -/
theorem splitOnChar_no_sep {sep : Char} {s : Str} (h : sep ∉ s) :
    splitOnChar sep s = [s] := by
  induction s with
  | nil => rfl
  | cons c cs ih =>
    have hc : ¬(c = sep) := fun hcc => h (hcc ▸ List.mem_cons_self c cs)
    rw [splitOnChar]
    simp only [if_neg hc]
    rw [ih (fun hm => h (List.mem_cons_of_mem c hm))]

/-- Splitting past a separator-free prefix peels it off. -/
theorem splitOnChar_append {sep : Char} {s t : Str} (h : sep ∉ s) :
    splitOnChar sep (s ++ sep :: t) = s :: splitOnChar sep t := by
  induction s with
  | nil =>
    rw [List.nil_append, splitOnChar]
    simp
  | cons c cs ih =>
    have hc : ¬(c = sep) := fun hcc => h (hcc ▸ List.mem_cons_self c cs)
    rw [List.cons_append, splitOnChar]
    simp only [if_neg hc]
    rw [ih (fun hm => h (List.mem_cons_of_mem c hm))]

/-- `split` undoes `join` for a nonempty list of separator-free parts. -/
theorem splitOnChar_joinWith {sep : Char} {L : List Str} (hne : L ≠ [])
    (h : ∀ s ∈ L, sep ∉ s) :
    splitOnChar sep (joinWith sep L) = L := by
  induction L with
  | nil => exact absurd rfl hne
  | cons a t ih =>
    cases t with
    | nil =>
      rw [joinWith]
      exact splitOnChar_no_sep (h a (List.mem_cons_self a []))
    | cons b t2 =>
      have hj : joinWith sep (a :: b :: t2) =
          a ++ sep :: joinWith sep (b :: t2) := rfl
      rw [hj]
      rw [splitOnChar_append (h a (List.mem_cons_self a (b :: t2)))]
      rw [ih (by simp) (fun s hs => h s (List.mem_cons_of_mem a hs))]

/-- `join` of a nonempty list of nonempty parts is nonempty. -/
theorem joinWith_ne_nil {sep : Char} {L : List Str} (hne : L ≠ [])
    (h : ∀ s ∈ L, s ≠ []) : joinWith sep L ≠ [] := by
  induction L with
  | nil => exact absurd rfl hne
  | cons a t _ =>
    cases t with
    | nil => exact h a (List.mem_cons_self a [])
    | cons b t2 =>
      have hj : joinWith sep (a :: b :: t2) =
          a ++ sep :: joinWith sep (b :: t2) := rfl
      rw [hj]
      intro hcontra
      rcases List.append_eq_nil.mp hcontra with ⟨_, h2⟩
      exact List.cons_ne_nil _ _ h2

/-- A character that is not URL-safe cannot occur in an all-safe string. -/
theorem not_mem_of_safe {s : Str} {c : Char} (h : urlSafeStr s = true)
    (hc : urlSafeChar c = false) : c ∉ s := by
  intro hm
  rw [urlSafeStr_mem h hm] at hc
  exact absurd hc (by decide)

/-- `&` does not occur in a URL-safe `key=value` segment. -/
theorem amp_not_mem_seg {k v : Str} (hk : urlSafeStr k = true)
    (hv : urlSafeStr v = true) : '&' ∉ k ++ '=' :: v := by
  intro hm
  rcases List.mem_append.mp hm with hmk | hmv
  · exact not_mem_of_safe hk (by decide) hmk
  · rcases List.mem_cons.mp hmv with heq | hmv2
    · exact absurd heq (by decide)
    · exact not_mem_of_safe hv (by decide) hmv2

/-- Parsing one URL-safe `key=value` segment recovers the pair. -/
theorem parsePair_safe {k v : Str} (hk : urlSafeStr k = true)
    (hv : urlSafeStr v = true) : parsePair (k ++ '=' :: v) = some (k, v) := by
  have hsplit : splitOnChar '=' (k ++ '=' :: v) = [k, v] := by
    rw [splitOnChar_append (not_mem_of_safe hk (by decide))]
    rw [splitOnChar_no_sep (not_mem_of_safe hv (by decide))]
  have h1 : decodeURIComp k = some k := decodeURIComp_safe hk
  have h2 : decodeURIComp (joinWith '=' [v]) = some v := decodeURIComp_safe hv
  unfold parsePair
  rw [hsplit]
  simp [h1, h2]

/-- Appending a fresh key with `appendVal` appends the pair. -/
theorem appendVal_new {p : Params} {k v : Str}
    (h : ∀ ab ∈ p, ab.1 ≠ k) : appendVal p k v = p ++ [(k, [v])] := by
  unfold appendVal
  rw [if_neg]
  intro hany
  rcases List.any_eq_true.mp hany with ⟨x, hx, hbeq⟩
  exact h x hx (eq_of_beq hbeq)

/-- Folding the parser over URL-safe segments with pairwise-distinct fresh
keys appends the corresponding entries to the accumulator. -/
theorem parse_fold (m : List (Str × Str)) (acc : Params)
    (hsafe : ∀ kv ∈ m, urlSafeStr kv.1 = true ∧ urlSafeStr kv.2 = true)
    (hnd : (m.map Prod.fst).Nodup)
    (hdisj : ∀ kv ∈ m, ∀ ab ∈ acc, ab.1 ≠ kv.1) :
    List.foldlM
      (fun ps seg => (parsePair seg).map (fun kv => appendVal ps kv.1 kv.2))
      acc (m.map (fun kv => kv.1 ++ '=' :: kv.2)) =
      some (acc ++ toParams m) := by
  induction m generalizing acc with
  | nil => simp [toParams]
  | cons a t ih =>
    have ha := hsafe a (List.mem_cons_self a t)
    rw [List.map_cons, List.foldlM_cons]
    rw [parsePair_safe ha.1 ha.2]
    rw [List.map_cons, List.nodup_cons] at hnd
    have happ : appendVal acc a.1 a.2 = acc ++ [(a.1, [a.2])] :=
      appendVal_new (fun ab hab => hdisj a (List.mem_cons_self a t) ab hab)
    have hdisj2 : ∀ kv ∈ t, ∀ ab ∈ acc ++ [(a.1, [a.2])], ab.1 ≠ kv.1 := by
      intro kv hkv ab hab
      rcases List.mem_append.mp hab with habl | habr
      · exact hdisj kv (List.mem_cons_of_mem a hkv) ab habl
      · rw [List.mem_singleton.mp habr]
        intro hContra
        exact hnd.1 (hContra ▸ List.mem_map_of_mem Prod.fst hkv)
    have ht : ∀ kv ∈ t, urlSafeStr kv.1 = true ∧ urlSafeStr kv.2 = true :=
      fun kv hkv => hsafe kv (List.mem_cons_of_mem a hkv)
    simp only [Option.map_some', happ, Option.pure_def, Option.bind_eq_bind,
      Option.some_bind]
    rw [ih (acc ++ [(a.1, [a.2])]) ht hnd.2 hdisj2]
    simp [toParams]

/-- On a URL-safe `FragmentMap`, serialization is the plain
`k=v&...&k=v` string. -/
theorem encode_safe (m : List (Str × Str))
    (hsafe : ∀ kv ∈ m, urlSafeStr kv.1 = true ∧ urlSafeStr kv.2 = true) :
    encodeFragmentMap m =
      joinWith '&' (m.map (fun kv => kv.1 ++ '=' :: kv.2)) := by
  unfold encodeFragmentMap paramsToString toParams
  rw [List.map_map]
  have hmap : m.map
      ((fun kv : Str × List Str =>
          joinWith '&'
            (kv.2.map (fun v =>
              standardEncoding kv.1 ++ '=' :: standardEncoding v))) ∘
        (fun kv : Str × Str => (kv.1, [kv.2]))) =
      m.map (fun kv => kv.1 ++ '=' :: kv.2) := by
    apply List.map_congr_left
    intro a ha
    show joinWith '&' [standardEncoding a.1 ++ '=' :: standardEncoding a.2] =
      a.1 ++ '=' :: a.2
    rw [joinWith, standardEncoding_safe (hsafe a ha).1,
      standardEncoding_safe (hsafe a ha).2]
  rw [hmap]
  rw [List.filter_eq_self.mpr]
  intro a ha
  rcases List.mem_map.mp ha with ⟨kv, _, hkv⟩
  have hne : a ≠ [] := by
    rw [← hkv]
    simp
  simpa using hne

/-- **C1** — Round-trip law: for every `FragmentMap` `m` (distinct keys)
whose keys and values are URL-safe strings, decoding
(`HttpParams fromString`, as in `getFragmentParams`) the fragment string
produced by encoding `m` (`params.toString()`, as in `setFragmentParams`)
yields `m` again, i.e. exactly the `HttpParams` entries of `m`. -/
theorem C1_round_trip (m : List (Str × Str))
    (hnd : (m.map Prod.fst).Nodup)
    (hsafe : ∀ kv ∈ m, urlSafeStr kv.1 = true ∧ urlSafeStr kv.2 = true) :
    parseParams (encodeFragmentMap m) = some (toParams m) := by
  rw [encode_safe m hsafe]
  match m with
  | [] => rfl
  | a :: t =>
    have hsegs_ne : (a :: t).map (fun kv => kv.1 ++ '=' :: kv.2) ≠ [] := by
      simp
    have hall_amp : ∀ s ∈ (a :: t).map (fun kv => kv.1 ++ '=' :: kv.2),
        '&' ∉ s := by
      intro s hs
      rcases List.mem_map.mp hs with ⟨kv, hkv, hseq⟩
      rw [← hseq]
      exact amp_not_mem_seg (hsafe kv hkv).1 (hsafe kv hkv).2
    have hall_ne : ∀ s ∈ (a :: t).map (fun kv => kv.1 ++ '=' :: kv.2),
        s ≠ [] := by
      intro s hs
      rcases List.mem_map.mp hs with ⟨kv, _, hseq⟩
      rw [← hseq]
      simp
    have hraw : joinWith '&' ((a :: t).map (fun kv => kv.1 ++ '=' :: kv.2)) ≠
        [] := joinWith_ne_nil hsegs_ne hall_ne
    unfold parseParams
    rw [if_neg hraw]
    rw [splitOnChar_joinWith hsegs_ne hall_amp]
    exact parse_fold (a :: t) [] hsafe hnd (by simp)

/-- Witness for C1 at the concrete map `{l: L1, f: F2}`. -/
theorem C1_round_trip_witness :
    parseParams (encodeFragmentMap [(str "l", str "L1"), (str "f", str "F2")]) =
      some (toParams [(str "l", str "L1"), (str "f", str "F2")]) :=
  C1_round_trip [(str "l", str "L1"), (str "f", str "F2")] (by decide)
    (by decide)

/-- On params whose value lists and values are nonempty, `get`-truthiness
coincides with key presence. -/
theorem truthy_get_eq_hasKey {p : Params} (k : Str) (hvalid : validParams p)
    (hne : ∀ kv ∈ p, ∀ v ∈ kv.2, v ≠ []) :
    truthy (paramsGet p k) = paramsHasKey p k := by
  unfold paramsGet paramsHasKey
  cases hf : p.find? (fun kv => kv.1 == k) with
  | none =>
    have hfalse : (p.any fun kv => kv.1 == k) = false := by
      rw [List.any_eq_false]
      intro x hx
      exact List.find?_eq_none.mp hf x hx
    show truthy none = p.any fun kv => kv.1 == k
    rw [hfalse]
    rfl
  | some kv =>
    have hmem := List.mem_of_find?_eq_some hf
    have hpred := List.find?_some hf
    have hv2 : kv.2 ≠ [] := hvalid kv hmem
    cases hcv : kv.2 with
    | nil => exact absurd hcv hv2
    | cons v vs =>
      have hvne : v ≠ [] :=
        hne kv hmem v (hcv ▸ List.mem_cons_self v vs)
      show truthy kv.2.head? = p.any fun kv => kv.1 == k
      rw [hcv]
      have h1 : (v == ([] : Str)) = false := beq_eq_false_iff_ne.mpr hvne
      have hany : (p.any fun kv => kv.1 == k) = true :=
        List.any_eq_true.mpr ⟨kv, hmem, hpred⟩
      show (!(v == [])) = (p.any fun kv => kv.1 == k)
      rw [h1, hany]
      rfl

/-- **C2, counterexample** — a `FragmentMap` in which the observation key
is *present* but with the empty-string value (reachable from the fragment
`"o="`): the code tests `get` for truthiness, so it returns `LAYER_LIST`,
not `OBSERVATION` as the claim requires. -/
theorem C2_counterexample :
    parseParams (str "o=") = some [(str "o", [[]])] ∧
    paramsHasKey [(str "o", [[]])] OBSERVATION_ID_FRAGMENT_PARAM = true ∧
    fragmentParamsToSideNavMode [(str "o", [[]])] = SideNavMode.LAYER_LIST ∧
    SideNavMode.LAYER_LIST ≠ SideNavMode.OBSERVATION := by decide

/-- **C2** (amended) — on every `FragmentMap` whose present values are
non-empty, the derived side-nav mode follows the fixed precedence on key
presence (observation, then feature, then `LAYER_LIST`), agreeing with the
spec's presence-based `project`; the mode is a pure total function of the
map.  The claim's four precedence examples hold as stated. -/
theorem C2_side_nav_mode (p : Params) (hvalid : validParams p)
    (hne : ∀ kv ∈ p, ∀ v ∈ kv.2, v ≠ []) :
    fragmentParamsToSideNavMode p = sideNavModeSpec p ∧
    fragmentParamsToSideNavMode
        (toParams [(str "o", str "x"), (str "f", str "y"),
          (str "l", str "z")]) = SideNavMode.OBSERVATION ∧
    fragmentParamsToSideNavMode
        (toParams [(str "f", str "y"), (str "l", str "z")]) =
      SideNavMode.FEATURE ∧
    fragmentParamsToSideNavMode (toParams [(str "l", str "z")]) =
      SideNavMode.LAYER_LIST ∧
    fragmentParamsToSideNavMode [] = SideNavMode.LAYER_LIST := by
  refine ⟨?_, by decide, by decide, by decide, by decide⟩
  unfold fragmentParamsToSideNavMode sideNavModeSpec
  rw [truthy_get_eq_hasKey OBSERVATION_ID_FRAGMENT_PARAM hvalid hne,
    truthy_get_eq_hasKey FEATURE_ID_FRAGMENT_PARAM hvalid hne]

/-- Witness for C2 at the concrete map `{o: x}`. -/
theorem C2_side_nav_mode_witness :
    fragmentParamsToSideNavMode (toParams [(str "o", str "x")]) =
      sideNavModeSpec (toParams [(str "o", str "x")]) :=
  (C2_side_nav_mode (toParams [(str "o", str "x")]) (by decide)
    (by decide)).1

/-- Deleting a key leaves it absent. -/
theorem paramsHasKey_delete (p : Params) (k : Str) :
    paramsHasKey (paramsDelete p k) k = false := by
  unfold paramsHasKey paramsDelete
  rw [List.any_eq_false]
  intro x hx
  have h2 := (List.mem_filter.mp hx).2
  rw [Bool.not_eq_true'] at h2
  simp [h2]

/-- **C3, counterexample** — a current fragment `"f=abc&o="` in which the
observation key is *present* (with the empty-string value): the cascade in
`setFeatureId` tests `getObservationId()` for truthiness, so it does not
clear `o`, and the observation key survives `setFeatureId("def")`,
contradicting the claim for presence-with-empty-value. -/
theorem C3_counterexample :
    parseParams (str "f=abc&o=") =
      some [(str "f", [str "abc"]), (str "o", [[]])] ∧
    paramsHasKey [(str "f", [str "abc"]), (str "o", [[]])]
      OBSERVATION_ID_FRAGMENT_PARAM = true ∧
    paramsHasKey
      (setFeatureId (some (str "def"))
        [(str "f", [str "abc"]), (str "o", [[]])])
      OBSERVATION_ID_FRAGMENT_PARAM = true := by decide

/-- **C3** (amended) — for every current `FragmentMap` in which the
observation key is present *with a truthy (non-empty) value*, `setFeatureId`
(with any id, non-null or null) removes the observation key; in particular
from fragment `f=abc&o=xyz`, `setFeatureId("def")` yields fragment `f=def`
and `setFeatureId(null)` yields the empty map (neither `f` nor `o`). -/
theorem C3_cascade (id : Option Str) (params : Params)
    (h : truthy (getObservationIdOf params) = true) :
    paramsHasKey (setFeatureId id params)
      OBSERVATION_ID_FRAGMENT_PARAM = false ∧
    paramsToString
        (setFeatureId (some (str "def"))
          [(str "f", [str "abc"]), (str "o", [str "xyz"])]) = str "f=def" ∧
    setFeatureId none [(str "f", [str "abc"]), (str "o", [str "xyz"])] =
      [] ∧
    parseParams (str "f=abc&o=xyz") =
      some [(str "f", [str "abc"]), (str "o", [str "xyz"])] := by
  refine ⟨?_, by decide, by decide, by decide⟩
  unfold setFeatureId
  rw [h]
  simp only [if_true]
  unfold setFragmentParamUpdates
  rw [List.foldl_cons, List.foldl_cons, List.foldl_nil]
  simp only [truthy, Bool.false_eq_true, if_false]
  exact paramsHasKey_delete _ _

/-- Witness for C3 at the fragment `f=abc&o=xyz`. -/
theorem C3_cascade_witness :
    paramsHasKey
      (setFeatureId (some (str "def"))
        [(str "f", [str "abc"]), (str "o", [str "xyz"])])
      OBSERVATION_ID_FRAGMENT_PARAM = false :=
  (C3_cascade (some (str "def"))
    [(str "f", [str "abc"]), (str "o", [str "xyz"])] (by decide)).1

/-- The per-key serialization of a nonempty value list is nonempty. -/
theorem innerSeg_ne_nil (k : Str) (vs : List Str) (hvs : vs ≠ []) :
    joinWith '&'
      (vs.map (fun v => standardEncoding k ++ '=' :: standardEncoding v)) ≠
      [] := by
  apply joinWith_ne_nil
  · simpa using hvs
  · intro s hs
    rcases List.mem_map.mp hs with ⟨v, _, hv⟩
    rw [← hv]
    simp

/-- `toString` of a nonempty valid params map is nonempty. -/
theorem paramsToString_ne_nil {p : Params} (hvalid : validParams p)
    (hne : p ≠ []) : paramsToString p ≠ [] := by
  unfold paramsToString
  apply joinWith_ne_nil
  · cases p with
    | nil => exact absurd rfl hne
    | cons kv t =>
      rw [List.map_cons, List.filter_cons]
      have hkv : joinWith '&'
          (kv.2.map (fun v =>
            standardEncoding kv.1 ++ '=' :: standardEncoding v)) ≠ [] :=
        innerSeg_ne_nil kv.1 kv.2 (hvalid kv (List.mem_cons_self kv t))
      rw [if_pos]
      · exact List.cons_ne_nil _ _
      · have hb := beq_eq_false_iff_ne.mpr hkv
        rw [hb]
        rfl
  · intro s hs
    have h2 := (List.mem_filter.mp hs).2
    rw [Bool.not_eq_true'] at h2
    exact beq_eq_false_iff_ne.mp h2

/-- `set` preserves nonempty value lists. -/
theorem validParams_set {p : Params} (k v : Str) (h : validParams p) :
    validParams (paramsSet p k v) := by
  unfold paramsSet
  split
  · intro kv hkv
    rcases List.mem_map.mp hkv with ⟨ab, hab, habeq⟩
    by_cases hcase : (ab.1 == k) = true
    · rw [← habeq]
      simp [hcase]
    · rw [← habeq]
      simp only [hcase]
      simp only [Bool.false_eq_true, if_false]
      exact h ab hab
  · intro kv hkv
    rcases List.mem_append.mp hkv with h1 | h2
    · exact h kv h1
    · rw [List.mem_singleton.mp h2]
      simp

/-- `delete` preserves nonempty value lists. -/
theorem validParams_delete {p : Params} (k : Str) (h : validParams p) :
    validParams (paramsDelete p k) :=
  fun kv hkv => h kv (List.mem_of_mem_filter hkv)

/-- `setFragmentParam` preserves nonempty value lists. -/
theorem validParams_updates (us : List (Str × Option Str)) (p : Params)
    (h : validParams p) : validParams (setFragmentParamUpdates us p) := by
  induction us generalizing p with
  | nil => exact h
  | cons u t ih =>
    show validParams (setFragmentParamUpdates t
      (if truthy u.2 then paramsSet p u.1 (fragOrEmpty u.2)
        else paramsDelete p u.1))
    apply ih
    cases htr : truthy u.2 with
    | true => simpa using validParams_set u.1 (fragOrEmpty u.2) h
    | false => simpa using validParams_delete u.1 h

/-- `setFragmentParams` requests the primary path with no fragment at all
when the map is empty, and with the encoded fragment otherwise. -/
theorem setFragmentParamsNav_shape (u : Str) (p : Params)
    (hvalid : validParams p) :
    (p = [] → setFragmentParamsNav u p =
      NavCall.navigate [u] defaultExtras) ∧
    (p ≠ [] → setFragmentParamsNav u p =
      NavCall.navigate [u] ⟨some (paramsToString p), false⟩) := by
  constructor
  · intro hp
    subst hp
    rfl
  · intro hp
    have hb : (paramsToString p == ([] : Str)) = false :=
      beq_eq_false_iff_ne.mpr (paramsToString_ne_nil hvalid hp)
    unfold setFragmentParamsNav
    rw [if_pos]
    rw [hb]
    rfl

/-- **C4** — for every valid current `FragmentMap` and each
fragment-mutating operation (`setFeatureId`, `setObservationId`,
`setLayerId`): if the resulting map after the requested and cascade
changes is empty, the requested navigation carries no fragment at all
(`fragment = none` in the extras, not an empty string); if non-empty, the
navigation targets the current primary path with the encoded fragment. -/
theorem C4_empty_fragment (primaryUrl : Str) (idF idO : Option Str)
    (idL : Str) (params : Params) (hvalid : validParams params) :
    ((setFeatureId idF params = [] →
        setFeatureIdNav primaryUrl idF params =
          NavCall.navigate [primaryUrl] defaultExtras) ∧
      (setFeatureId idF params ≠ [] →
        setFeatureIdNav primaryUrl idF params =
          NavCall.navigate [primaryUrl]
            ⟨some (paramsToString (setFeatureId idF params)), false⟩)) ∧
    ((setObservationId idO params = [] →
        setObservationIdNav primaryUrl idO params =
          NavCall.navigate [primaryUrl] defaultExtras) ∧
      (setObservationId idO params ≠ [] →
        setObservationIdNav primaryUrl idO params =
          NavCall.navigate [primaryUrl]
            ⟨some (paramsToString (setObservationId idO params)),
              false⟩)) ∧
    ((setLayerId idL params = [] →
        setLayerIdNav primaryUrl idL params =
          NavCall.navigate [primaryUrl] defaultExtras) ∧
      (setLayerId idL params ≠ [] →
        setLayerIdNav primaryUrl idL params =
          NavCall.navigate [primaryUrl]
            ⟨some (paramsToString (setLayerId idL params)), false⟩)) := by
  have hF : validParams (setFeatureId idF params) := by
    unfold setFeatureId
    exact validParams_updates _ _ hvalid
  have hO : validParams (setObservationId idO params) := by
    unfold setObservationId
    exact validParams_updates _ _ hvalid
  have hL : validParams (setLayerId idL params) := by
    unfold setLayerId
    exact validParams_updates _ _ hvalid
  exact ⟨setFragmentParamsNav_shape primaryUrl _ hF,
    setFragmentParamsNav_shape primaryUrl _ hO,
    setFragmentParamsNav_shape primaryUrl _ hL⟩

/-- Witness for C4: from fragment `f=abc`, `setFeatureId(null)` navigates
with no fragment at all, while `setLayerId("q")` navigates with the
encoded fragment. -/
theorem C4_empty_fragment_witness :
    setFeatureIdNav (str "p") none [(str "f", [str "abc"])] =
      NavCall.navigate [str "p"] defaultExtras ∧
    setLayerIdNav (str "p") (str "q") [(str "f", [str "abc"])] =
      NavCall.navigate [str "p"]
        ⟨some (paramsToString (setLayerId (str "q")
          [(str "f", [str "abc"])])), false⟩ :=
  ⟨((C4_empty_fragment (str "p") none none (str "q")
      [(str "f", [str "abc"])] (by decide)).1).1 (by decide),
    ((C4_empty_fragment (str "p") none none (str "q")
      [(str "f", [str "abc"])] (by decide)).2.2).2 (by decide)⟩

/-- Replacing the entry at key `k` in place does not affect the entries
selected by a predicate that rejects key `k`. -/
theorem filter_map_set {k v : Str} (q : Str × List Str → Bool)
    (hk : ∀ vs, q (k, vs) = false) (p : Params) :
    (p.map (fun kv => if kv.1 == k then (k, [v]) else kv)).filter q =
      p.filter q := by
  induction p with
  | nil => rfl
  | cons a t ih =>
    rw [List.map_cons, List.filter_cons, List.filter_cons]
    by_cases hcase : (a.1 == k) = true
    · have ha1 : a.1 = k := eq_of_beq hcase
      have hqa : q a = false := by
        rw [← Prod.mk.eta (p := a), ha1]
        exact hk a.2
      rw [if_pos hcase]
      rw [hk [v], hqa]
      simpa using ih
    · rw [if_neg hcase]
      by_cases hqa : q a = true
      · rw [hqa]
        simpa using congrArg (List.cons a) ih
      · rw [Bool.not_eq_true] at hqa
        rw [hqa]
        simpa using ih

/-- `set` on key `k` leaves the entries selected by any predicate that
rejects key `k` untouched (values and order included). -/
theorem paramsSet_filter_ne {k v : Str} (q : Str × List Str → Bool)
    (hk : ∀ vs, q (k, vs) = false) (p : Params) :
    (paramsSet p k v).filter q = p.filter q := by
  unfold paramsSet
  split
  · exact filter_map_set q hk p
  · rw [List.filter_append]
    have : List.filter q [(k, [v])] = [] := by
      rw [List.filter_cons, hk [v]]
      rfl
    rw [this, List.append_nil]

/-- `delete` on key `k` likewise leaves such entries untouched. -/
theorem paramsDelete_filter_ne {k : Str} (q : Str × List Str → Bool)
    (hk : ∀ vs, q (k, vs) = false) (p : Params) :
    (paramsDelete p k).filter q = p.filter q := by
  unfold paramsDelete
  induction p with
  | nil => rfl
  | cons a t ih =>
    rw [List.filter_cons]
    by_cases hcase : (a.1 == k) = true
    · have ha1 : a.1 = k := eq_of_beq hcase
      have hqa : q a = false := by
        rw [← Prod.mk.eta (p := a), ha1]
        exact hk a.2
      rw [List.filter_cons, hqa]
      simp only [hcase, Bool.not_true, Bool.false_eq_true, if_false]
      exact ih
    · rw [Bool.not_eq_true] at hcase
      simp only [hcase, Bool.not_false, if_true]
      rw [List.filter_cons, List.filter_cons]
      cases hqa : q a with
      | true => simpa using congrArg (List.cons a) ih
      | false => simpa using ih

/-- `setFragmentParam` leaves entries whose keys are rejected by `q`
untouched whenever every updated key is rejected by `q`. -/
theorem updates_filter (us : List (Str × Option Str))
    (q : Str × List Str → Bool) (hq : ∀ u ∈ us, ∀ vs, q (u.1, vs) = false)
    (p : Params) :
    (setFragmentParamUpdates us p).filter q = p.filter q := by
  induction us generalizing p with
  | nil => rfl
  | cons u t ih =>
    show (setFragmentParamUpdates t
      (if truthy u.2 then paramsSet p u.1 (fragOrEmpty u.2)
        else paramsDelete p u.1)).filter q = p.filter q
    rw [ih (fun x hx => hq x (List.mem_cons_of_mem u hx))]
    have hu := hq u (List.mem_cons_self u t)
    cases truthy u.2 with
    | true => simpa using paramsSet_filter_ne q hu p
    | false => simpa using paramsDelete_filter_ne q hu p

/-- **C5** — frame property: on every current `FragmentMap` (any keys,
known or unknown), `setLayerId` changes only the `l` entry, 
`setObservationId` only the `o` entry, and `setFeatureId` only the `f` and
`o` entries: all other entries are preserved verbatim, in order.  In
particular `setLayerId("q")` on fragment `f=abc&o=xyz` yields exactly the
entries `f=abc`, `o=xyz`, `l=q`. -/
theorem C5_unrelated_keys_preserved (idL : Str) (idF idO : Option Str)
    (params : Params) :
    (setLayerId idL params).filter
        (fun kv => !(kv.1 == LAYER_ID_FRAGMENT_PARAM)) =
      params.filter (fun kv => !(kv.1 == LAYER_ID_FRAGMENT_PARAM)) ∧
    (setObservationId idO params).filter
        (fun kv => !(kv.1 == OBSERVATION_ID_FRAGMENT_PARAM)) =
      params.filter (fun kv => !(kv.1 == OBSERVATION_ID_FRAGMENT_PARAM)) ∧
    (setFeatureId idF params).filter
        (fun kv => !(kv.1 == FEATURE_ID_FRAGMENT_PARAM) &&
          !(kv.1 == OBSERVATION_ID_FRAGMENT_PARAM)) =
      params.filter
        (fun kv => !(kv.1 == FEATURE_ID_FRAGMENT_PARAM) &&
          !(kv.1 == OBSERVATION_ID_FRAGMENT_PARAM)) ∧
    setLayerId (str "q") [(str "f", [str "abc"]), (str "o", [str "xyz"])] =
      [(str "f", [str "abc"]), (str "o", [str "xyz"]),
        (str "l", [str "q"])] := by
  refine ⟨?_, ?_, ?_, by decide⟩
  · unfold setLayerId
    apply updates_filter
    intro u hu vs
    rw [List.mem_singleton.mp hu]
    simp
  · unfold setObservationId
    apply updates_filter
    intro u hu vs
    rw [List.mem_singleton.mp hu]
    simp
  · unfold setFeatureId
    apply updates_filter
    intro u hu vs
    rcases List.mem_cons.mp hu with h1 | h2
    · rw [h1]
      simp
    · by_cases htr : truthy (getObservationIdOf params) = true
      · rw [if_pos htr] at h2
        rw [List.mem_singleton.mp h2]
        simp
      · rw [if_neg htr] at h2
        exact absurd h2 (List.not_mem_nil u)

/-- **C6, counterexample** — `selectProject("p1")` issues
`navigateByUrl('project/p1')` with no extras: `replaceUrl` is unset, i.e.
`false`, so the navigation *pushes* a new history entry, contradicting the
claim that every operation replaces the current entry. -/
theorem C6_counterexample :
    selectProjectNav (str "p1") =
      NavCall.navigateByUrl (str "project/p1") defaultExtras ∧
    NavCall.replaces (selectProjectNav (str "p1")) = false ∧
    false ≠ true := by decide

/-- **C6** (amended) — none of the navigations requested by the service
(`setFeatureId`, `setObservationId`, `setLayerId`, `editObservation`,
`selectProject`, `newProject`, `signIn`, `signOut`) sets `replaceUrl`:
every one pushes a new browser history entry (Angular's default) rather
than replacing the current one. -/
theorem C6_navigations_push (primaryUrl : Str) (idF idO idE : Option Str)
    (idL idP : Str) (params : Params) :
    NavCall.replaces (setFeatureIdNav primaryUrl idF params) = false ∧
    NavCall.replaces (setObservationIdNav primaryUrl idO params) = false ∧
    NavCall.replaces (setLayerIdNav primaryUrl idL params) = false ∧
    NavCall.replaces (editObservationNav primaryUrl idE params) = false ∧
    NavCall.replaces (selectProjectNav idP) = false ∧
    NavCall.replaces newProjectNav = false ∧
    NavCall.replaces signInNav = false ∧
    NavCall.replaces signOutNav = false := by
  have hfrag : ∀ p : Params,
      NavCall.replaces (setFragmentParamsNav primaryUrl p) = false := by
    intro p
    unfold setFragmentParamsNav
    split
    · rfl
    · rfl
  exact ⟨hfrag _, hfrag _, hfrag _, hfrag _, rfl, rfl, rfl, rfl⟩

/-- **C7, counterexample** — two fragment events `l=a` and `l=a&f=b`: the
layer value is unchanged (`a`) and only the feature key changed, yet
`layerId$` (a plain `map` with no `distinctUntilChanged`) emits a second
value, contradicting the claim that a stream emits only when its own key's
value changes. -/
theorem C7_counterexample :
    parseParams (str "l=a") = some [(str "l", [str "a"])] ∧
    parseParams (str "l=a&f=b") =
      some [(str "l", [str "a"]), (str "f", [str "b"])] ∧
    paramsGet [(str "l", [str "a"])] LAYER_ID_FRAGMENT_PARAM =
      paramsGet [(str "l", [str "a"]), (str "f", [str "b"])]
        LAYER_ID_FRAGMENT_PARAM ∧
    paramsGet [(str "l", [str "a"])] FEATURE_ID_FRAGMENT_PARAM ≠
      paramsGet [(str "l", [str "a"]), (str "f", [str "b"])]
        FEATURE_ID_FRAGMENT_PARAM ∧
    layerIdStream [some (str "l=a"), some (str "l=a&f=b")] =
      [some (some (str "a")), some (some (str "a"))] ∧
    (layerIdStream [some (str "l=a"), some (str "l=a&f=b")]).length = 2 := by
  decide

/-- **C7** (amended) — the derived id streams are plain `map`s over the
fragment events with no distinct-until-changed filtering: each of
`layerId$`, `featureId$` and `observationId$` emits exactly one value per
fragment navigation event, whether or not its own key's value changed. -/
theorem C7_streams_emit_per_event (frags : List (Option Str)) :
    (layerIdStream frags).length = frags.length ∧
    (featureIdStream frags).length = frags.length ∧
    (observationIdStream frags).length = frags.length ∧
    (sideNavModeStream frags).length = frags.length := by
  unfold layerIdStream featureIdStream observationIdStream sideNavModeStream
    fragmentParamsStream
  simp

/-- **C8, counterexample** — on the service as constructed (before
`init`): `getProjectId$()` silently returns `undefined` (the TypeScript
non-null assertion has no runtime check), and `getFeatureId()` throws a
`TypeError` from dereferencing the undefined route — not an
`InitializationError`; no accessor produces an `InitializationError`. -/
theorem C8_counterexample :
    getProjectIdAccessor uninitializedService = none ∧
    getFeatureIdAccessor uninitializedService =
      Except.error JsError.typeError ∧
    JsError.typeError ≠ JsError.initializationError :=
  ⟨rfl, rfl, by decide⟩

/-- **C8** (amended) — before `init`, the five stream accessors silently
return `undefined` (`none`), and the snapshot accessors `getFeatureId` /
`getObservationId` fail with a `TypeError` (from
`this.activatedRoute!.snapshot` on `undefined`), not with an
`InitializationError`; no code path raises an `InitializationError`. -/
theorem C8_uninitialized_access :
    getProjectIdAccessor uninitializedService = none ∧
    getLayerIdAccessor uninitializedService = none ∧
    getFeatureIdStreamAccessor uninitializedService = none ∧
    getObservationIdStreamAccessor uninitializedService = none ∧
    getSideNavModeAccessor uninitializedService = none ∧
    getFeatureIdAccessor uninitializedService =
      Except.error JsError.typeError ∧
    getObservationIdAccessor uninitializedService =
      Except.error JsError.typeError :=
  ⟨rfl, rfl, rfl, rfl, rfl, rfl, rfl⟩

/-- **C9, counterexample** — the malformed fragment `"abc"` (no `=`)
parses without error to the *non-empty* map `{abc: [""]}`, unlike the
empty string, which parses to the empty map; and the malformed fragment
`"%"` throws (`URIError`) instead of being treated as empty. -/
theorem C9_counterexample :
    parseParams (str "abc") = some [(str "abc", [[]])] ∧
    parseParams (str "") = some [] ∧
    (some [(str "abc", [[]])] : Option Params) ≠ some [] ∧
    parseParams (str "%") = none :=
  ⟨by decide, by decide, by decide, by decide⟩

/-- **C9** (amended) — a fragment string that is not of `key=value&...`
shape is *not* treated as empty: any nonempty URL-safe string without `=`
parses, without error, to a map carrying the whole string as a key with
the empty-string value (while invalid percent-escapes throw a
`URIError`, per the counterexample). -/
theorem C9_malformed_not_empty (s : Str) (hne : s ≠ [])
    (hsafe : urlSafeStr s = true) : parseParams s = some [(s, [[]])] := by
  unfold parseParams
  rw [if_neg hne]
  rw [splitOnChar_no_sep (not_mem_of_safe hsafe (by decide))]
  have hps : parsePair s = some (s, []) := by
    unfold parsePair
    rw [splitOnChar_no_sep (not_mem_of_safe hsafe (by decide))]
    simp [decodeURIComp_safe hsafe]
  simp [hps, appendVal]

/-- Witness for C9 at the malformed fragment `"abc"`. -/
theorem C9_malformed_not_empty_witness :
    parseParams (str "abc") = some [(str "abc", [[]])] :=
  C9_malformed_not_empty (str "abc") (by decide) (by decide)

/-- After deleting key `k`, `get(k)` is null. -/
theorem paramsGet_delete (p : Params) (k : Str) :
    paramsGet (paramsDelete p k) k = none := by
  unfold paramsGet
  have hf : (paramsDelete p k).find? (fun kv => kv.1 == k) = none := by
    rw [List.find?_eq_none]
    intro x hx
    have h2 := (List.mem_filter.mp hx).2
    rw [Bool.not_eq_true'] at h2
    simp [h2]
  rw [hf]

/-- **C10, counterexample** — at the non-null id `""`, `editObservation`
and `setObservationId` have *identical* effects (both falsy ids delete the
key), refuting the claim's final clause that `editObservation` is not
equivalent to `setObservationId` for any non-null id. -/
theorem C10_counterexample :
    editObservation (some []) = setObservationId (some []) ∧
    (some ([] : Str)) ≠ (none : Option Str) :=
  ⟨funext (fun _ => rfl), by decide⟩

/-- **C10** (amended) — for every id (null or non-null), `editObservation`
never writes the id: because it passes the bare key string `'o'` where
`setFragmentParam` expects a map of updates, its effect equals
`setObservationId(null)` — the observation key is removed — and for every
non-null, *non-empty* id it differs from `setObservationId(id)`. -/
theorem C10_editObservation_is_clear (id : Option Str) (params : Params) :
    editObservation id params = setObservationId none params ∧
    paramsGet (editObservation id params)
      OBSERVATION_ID_FRAGMENT_PARAM = none ∧
    (∀ i : Str, i ≠ [] →
      editObservation (some i) [] ≠ setObservationId (some i) []) := by
  refine ⟨rfl, ?_, ?_⟩
  · exact paramsGet_delete params OBSERVATION_ID_FRAGMENT_PARAM
  · intro i hi
    have h1 : editObservation (some i) [] = [] := rfl
    have htr : truthy (some i) = true := by
      show (!(i == [])) = true
      rw [beq_eq_false_iff_ne.mpr hi]
      rfl
    have h2 : setObservationId (some i) [] =
        [(OBSERVATION_ID_FRAGMENT_PARAM, [i])] := by
      show setFragmentParamUpdates
        [(OBSERVATION_ID_FRAGMENT_PARAM, some i)] [] = _
      unfold setFragmentParamUpdates
      rw [List.foldl_cons, List.foldl_nil]
      rw [if_pos htr]
      rfl
    rw [h1, h2]
    simp

/-- Witness for C10 at the non-empty id `"x"`. -/
theorem C10_editObservation_is_clear_witness :
    editObservation (some (str "x")) [] ≠
      setObservationId (some (str "x")) [] :=
  (C10_editObservation_is_clear (some (str "x")) []).2.2 (str "x")
    (by decide)
